import Mathlib

/-!
Shallow embedding of the xbase repository's two source components:

* `ClampStatic.draw_layout` (src/xbase/layout/clamp/__init__.py): a layout
  planner that instantiates a static clamp as a black box, optionally emits
  rectangle arrays, and routes the VDD/VSS supply pins upward through metal
  layers to a target top layer.
* `SchTemplate.add_instance` (src/xbase/schematic/sch_template.py): schematic
  placeholder instance arraying/replacement.

Host-framework collaborators (the BAG routing grid, track manager and
connection primitives) are modelled as an explicit `Env` record of functions;
the routing grid's coordinate/track conversion is modelled concretely as an
affine track grid (offset + index * pitch), matching the host's documented
rounding modes.  Python `//` is floor division, embedded as `Int.fdiv`.
-/

/-- Axis-aligned bounding box `(xl, yl, xh, yh)`, as `pybag.core.BBox`. -/
structure BBoxI where
  xl : Int
  yl : Int
  xh : Int
  yh : Int
deriving Repr, DecidableEq

/-- Preferred routing direction of a layer, as `pybag.enum.Orient2D`. -/
inductive Orient2D where
  | x
  | y
deriving Repr, DecidableEq

/-- Rounding mode for coordinate-to-track snapping, as the two modes the
source uses from `pybag.enum.RoundMode`. -/
inductive RoundMode where
  | greaterEq
  | lessEq
deriving Repr, DecidableEq

/-- `TrackID(layer, index, width, num, pitch)` as constructed by the source. -/
structure TrackID where
  layer : Int
  index : Int
  width : Int
  num : Int
  pitch : Int
deriving Repr, DecidableEq

/-- A wire (BAG `WireArray`) on a layer's track, with lower/upper extent
along the layer direction. -/
structure Wire where
  layer : Int
  tid : TrackID
  lower : Int
  upper : Int
deriving Repr, DecidableEq

/-- One entry of `clamp_info['rect_arr_list']`: optional edge margins,
pitches `spx`/`spy`, unit sizes, and layer/purpose pair. -/
structure RectArr where
  marginXl : Int
  marginXh : Int
  marginYl : Int
  marginYh : Int
  spx : Int
  spy : Int
  wUnit : Int
  hUnit : Int
  layPurp : String × String
deriving Repr, DecidableEq

/-- The rectangle array actually emitted by `add_rect_array`. -/
structure RectArrayOut where
  layPurp : String × String
  box : BBoxI
  numX : Int
  numY : Int
  spx : Int
  spy : Int
deriving Repr, DecidableEq

/-- Errors `draw_layout` can raise: the `assert used_port_layer < port_layer`
(configuration error), the `ValueError('Redo routing on layer=...')`
(routing infeasible, carrying the offending layer), and the runtime error
hit when a supply net has no pin rectangles to connect (`max`/indexing on an
empty sequence in the source). -/
inductive DrawErr where
  | configError
  | routingInfeasible (layer : Int)
  | emptyPins
deriving Repr, DecidableEq

/-- Trace of the first-hop window computation: the `ext`-shrunk overlap
window `[hmLower, hmUpper]` and the two snapped track indices. -/
structure FirstHopRec where
  hmLower : Int
  hmUpper : Int
  lIdx : Int
  rIdx : Int
deriving Repr, DecidableEq

/-- Trace of one per-layer spread: the spread index list and the positions
taken by the VDD and VSS nets. -/
structure SpreadRec where
  layer : Int
  idxList : List Int
  vddIdx : Int
  vssIdx : Int
deriving Repr, DecidableEq

/-- Geometry bound to a published pin: a routed wire or a raw rectangle. -/
inductive PinGeom where
  | wire (w : Wire)
  | rect (layer : Int) (b : BBoxI)
deriving Repr, DecidableEq

/-- A published pin: net name, geometry, `hide` flag, `connect` flag. -/
structure Pin where
  net : String
  geom : PinGeom
  hidden : Bool
  connect : Bool
deriving Repr, DecidableEq

/-- Full observable outcome of one `draw_layout` invocation. -/
structure Outcome where
  topLayer : Int
  connLayer : Int
  err : Option DrawErr
  rectArrays : List RectArrayOut
  firstHop : Option FirstHopRec
  routedLayers : List Int
  counts : List (Int × Int)
  spreads : List SpreadRec
  pins : List Pin
deriving Repr, DecidableEq

/-- The host-framework collaborators (routing grid, track manager and
connection primitives), as opaque-to-the-source capability functions.
The track grid of a layer is affine: track `i` sits at coordinate
`track_offset + i * track_pitch`. -/
structure Env where
  get_direction : Int → Orient2D
  track_pitch : Int → Int
  track_offset : Int → Int
  get_wire_bounds : Int → Int → Int × Int
  get_width : Int → Int
  get_num_wires_between : Int → Int → Int → Int
  spread_wires : Int → Nat → Int → Int → List Int
  conn_bbox_extent : BBoxI → TrackID → Int × Int
  conn_wire_extent : Wire → TrackID → Int × Int

/-- Coordinate of track `i` on `layer`. -/
def track_coord (env : Env) (layer i : Int) : Int :=
  env.track_offset layer + i * env.track_pitch layer

/-- `grid.coord_to_track`: `greaterEq` returns the least track index whose
coordinate is `≥ coord`; `lessEq` the greatest with coordinate `≤ coord`
(for a positive pitch). -/
def coord_to_track (env : Env) (layer coord : Int) (mode : RoundMode) : Int :=
  match mode with
  | .greaterEq => -((env.track_offset layer - coord).fdiv (env.track_pitch layer))
  | .lessEq => (coord - env.track_offset layer).fdiv (env.track_pitch layer)

/-- Resolution of the target top layer: `params.get('top_layer')` followed by
`if not _top_layer: _top_layer = clamp_info['top_layer']` — Python falsiness,
so both an absent parameter and a supplied `0` fall back to the default. -/
def resolve_top_layer (param : Option Int) (dflt : Int) : Int :=
  match param with
  | none => dflt
  | some v => if v = 0 then dflt else v

/-- One rectangle-array emission (source lines 94-115): margin-adjust the
instance bounding box; on each axis, a zero pitch keeps one unit spanning the
adjusted extent, a nonzero pitch computes the repeat count by floor division
and clips the high edge to `low + unit`. -/
def emit_rect (bbox : BBoxI) (ra : RectArr) : RectArrayOut :=
  let xl := bbox.xl + ra.marginXl
  let xh0 := bbox.xh + ra.marginXh
  let yl := bbox.yl + ra.marginYl
  let yh0 := bbox.yh + ra.marginYh
  let px := if ra.spx = 0 then ((1 : Int), xh0)
    else ((xh0 - xl - ra.wUnit).fdiv ra.spx + 1, xl + ra.wUnit)
  let py := if ra.spy = 0 then ((1 : Int), yh0)
    else ((yh0 - yl - ra.hUnit).fdiv ra.spy + 1, yl + ra.hUnit)
  { layPurp := ra.layPurp
    box := { xl := xl, yl := yl, xh := px.2, yh := py.2 }
    numX := px.1
    numY := py.1
    spx := ra.spx
    spy := ra.spy }

/-- Fold step computing a running maximum of a list (Python `max(seq)`,
`none` for the empty sequence). -/
def omax (a : Option Int) (x : Int) : Option Int :=
  match a with
  | none => some x
  | some v => some (max v x)

/-- Fold step computing a running minimum of a list (Python `min(seq)`). -/
def omin (a : Option Int) (x : Int) : Option Int :=
  match a with
  | none => some x
  | some v => some (min v x)

/-- Python `max(seq)` as an `Option`-valued fold. -/
def pyMaxO (l : List Int) : Option Int := l.foldl omax none

/-- Python `min(seq)` as an `Option`-valued fold. -/
def pyMinO (l : List Int) : Option Int := l.foldl omin none

/-- `connect_bbox_to_tracks`: the produced wire lies on the target track,
with an extent supplied by the host connection primitive. -/
def mk_bbox_wire (env : Env) (b : BBoxI) (tid : TrackID) : Wire :=
  let e := env.conn_bbox_extent b tid
  { layer := tid.layer, tid := tid, lower := e.1, upper := e.2 }

/-- `connect_wires(ws)[0]`: merge same-track wires into one wire spanning
their union extent; fails on an empty list (Python `IndexError`). -/
def merge_on (tid : TrackID) (ws : List Wire) : Option Wire :=
  match pyMinO (ws.map Wire.lower), pyMaxO (ws.map Wire.upper) with
  | some lo, some hi => some { layer := tid.layer, tid := tid, lower := lo, upper := hi }
  | _, _ => none

/-- `[a, a+1, ..., a+n-1]` over `Int`. -/
def int_range (a : Int) : Nat → List Int
  | 0 => []
  | n + 1 => a :: int_range (a + 1) n

/-- Result of the upward-routing loop (source lines 174-191). -/
structure RouteRes where
  err : Option DrawErr
  routed : List Int
  counts : List (Int × Int)
  spreads : List SpreadRec
  plus : Wire
  minus : Wire
deriving Repr, DecidableEq

/-- Per-layer sizing/fitting/spreading data of one loop iteration. -/
structure StepRes where
  num : Int
  sp : SpreadRec
  plus : Wire
  minus : Wire
deriving Repr, DecidableEq

/-- One iteration body of the upward-routing loop (source lines 176-191):
window from the two ports' merged extents, snap, fit (+2 guard), spread,
and reconnect both ports onto layer `L`. -/
def route_layer (env : Env) (L : Int) (plus minus : Wire) : StepRes :=
  let lo := min plus.lower minus.lower
  let hi := max plus.upper minus.upper
  let lIdx := coord_to_track env L lo .greaterEq
  let rIdx := coord_to_track env L hi .lessEq
  let num := env.get_num_wires_between L lIdx rIdx + 2
  let n := num.fdiv 2
  let idxList := env.spread_wires L (2 * n).toNat lIdx rIdx
  let i0 := idxList.getD 0 0
  let i1 := idxList.getD 1 0
  let p := (i1 - i0) * 2
  let w := env.get_width L
  let ptid : TrackID := { layer := L, index := i0, width := w, num := n, pitch := p }
  let mtid : TrackID := { layer := L, index := i1, width := w, num := n, pitch := p }
  let pe := env.conn_wire_extent plus ptid
  let me := env.conn_wire_extent minus mtid
  { num := num
    sp := { layer := L, idxList := idxList, vddIdx := i0, vssIdx := i1 }
    plus := { layer := L, tid := ptid, lower := pe.1, upper := pe.2 }
    minus := { layer := L, tid := mtid, lower := me.1, upper := me.2 } }

/-- The upward-routing loop, one iteration per remaining layer; aborts with
the routing-infeasible error when the guarded fit count drops below 2. -/
def route_up (env : Env) : List Int → Wire → Wire → RouteRes
  | [], plus, minus =>
    { err := none, routed := [], counts := [], spreads := [], plus := plus, minus := minus }
  | L :: rest, plus, minus =>
    let s := route_layer env L plus minus
    if s.num < 2 then
      { err := some (.routingInfeasible L), routed := [L], counts := [(L, s.num)],
        spreads := [], plus := plus, minus := minus }
    else
      let r := route_up env rest s.plus s.minus
      { err := r.err, routed := L :: r.routed, counts := (L, s.num) :: r.counts,
        spreads := s.sp :: r.spreads, plus := r.plus, minus := r.minus }

/-- Placeholder wire for error branches that never publish a wire. -/
def dummyWire : Wire :=
  { layer := 0, tid := { layer := 0, index := 0, width := 0, num := 0, pitch := 0 },
    lower := 0, upper := 0 }

/-- Result of the whole routing section of `draw_layout`. -/
structure RouteAllRes where
  err : Option DrawErr
  firstHop : Option FirstHopRec
  routed : List Int
  counts : List (Int × Int)
  spreads : List SpreadRec
  plus : Wire
  minus : Wire
deriving Repr, DecidableEq

/-- The `ext`-shrink source window: joint overlap of all supply pin extents
along the `used` layer's direction (`max` of lower edges, `min` of upper
edges over `chain(vss_hm, vdd_hm)`). -/
def supply_window (env : Env) (used : Int) (combined : List BBoxI) : Int × Int :=
  match env.get_direction used with
  | .y => ((pyMaxO (combined.map BBoxI.yl)).getD 0, (pyMinO (combined.map BBoxI.yh)).getD 0)
  | .x => ((pyMaxO (combined.map BBoxI.xl)).getD 0, (pyMinO (combined.map BBoxI.xh)).getD 0)

/-- First-hop sizing data: the snapped window, the guarded fit count, the
spread record and the two per-net first-hop tracks. -/
structure HopRes where
  fh : FirstHopRec
  num : Int
  sp : SpreadRec
  ptid : TrackID
  mtid : TrackID
deriving Repr, DecidableEq

/-- The first-hop window/snap/fit/spread computation (source lines 130-157):
shrink the joint window inward by `ext` (half the zero-offset supply wire
bounds span on the next layer), snap the low end with `GREATER_EQ` and the
high end with `LESS_EQ`, count fitting supply wires (+2 guard), spread, and
build the VDD track (list position 0) and VSS track (list position 1). -/
def first_hop (env : Env) (used : Int) (win : Int × Int) : HopRes :=
  let tr := used + 1
  let wSup := env.get_width tr
  let bounds := env.get_wire_bounds tr wSup
  let ext := (bounds.2 - bounds.1).fdiv 2
  let hmLower := win.1 + ext
  let hmUpper := win.2 - ext
  let lIdx := coord_to_track env tr hmLower .greaterEq
  let rIdx := coord_to_track env tr hmUpper .lessEq
  let vmNum := env.get_num_wires_between tr lIdx rIdx + 2
  let n := vmNum.fdiv 2
  let idxList := env.spread_wires tr (2 * n).toNat lIdx rIdx
  let i0 := idxList.getD 0 0
  let i1 := idxList.getD 1 0
  let p := (i1 - i0) * 2
  { fh := { hmLower := hmLower, hmUpper := hmUpper, lIdx := lIdx, rIdx := rIdx }
    num := vmNum
    sp := { layer := tr, idxList := idxList, vddIdx := i0, vssIdx := i1 }
    ptid := { layer := tr, index := i0, width := wSup, num := n, pitch := p }
    mtid := { layer := tr, index := i1, width := wSup, num := n, pitch := p } }

/-- The routing section with its three pin-list-dependent inputs abstracted:
the emptiness of the combined pin list, the joint pin window, and the two
per-net merge operations (each mapping the chosen first-hop track to the
merged net wire, `none` when the net has no pin rectangle). -/
def route_all_core (env : Env) (used top : Int) (isEmp : Bool) (win : Int × Int)
    (plusOf minusOf : TrackID → Option Wire) : RouteAllRes :=
  let tr := used + 1
  if isEmp then
    { err := some .emptyPins, firstHop := none, routed := [], counts := [],
      spreads := [], plus := dummyWire, minus := dummyWire }
  else
    let s := first_hop env used win
    if s.num < 2 then
      { err := some (.routingInfeasible tr), firstHop := some s.fh, routed := [tr],
        counts := [(tr, s.num)], spreads := [], plus := dummyWire, minus := dummyWire }
    else
      match plusOf s.ptid with
      | none =>
        { err := some .emptyPins, firstHop := some s.fh, routed := [tr],
          counts := [(tr, s.num)], spreads := [s.sp], plus := dummyWire, minus := dummyWire }
      | some plusPort =>
        match minusOf s.mtid with
        | none =>
          { err := some .emptyPins, firstHop := some s.fh, routed := [tr],
            counts := [(tr, s.num)], spreads := [s.sp], plus := dummyWire, minus := dummyWire }
        | some minusPort =>
          let r := route_up env (int_range (tr + 1) (top - tr).toNat) plusPort minusPort
          { err := r.err, firstHop := some s.fh, routed := tr :: r.routed,
            counts := (tr, s.num) :: r.counts, spreads := s.sp :: r.spreads,
            plus := r.plus, minus := r.minus }

/-- The routing section (source lines 117-191): first hop from the pin
rectangles on `used` onto layer `used + 1` (each pin rectangle is connected
individually and the connections merged per net), then the upward loop to
`top`. -/
def route_all (env : Env) (used top : Int) (vdd vss : List BBoxI) : RouteAllRes :=
  route_all_core env used top (vss ++ vdd).isEmpty (supply_window env used (vss ++ vdd))
    (fun tid => merge_on tid (vdd.map (fun b => mk_bbox_wire env b tid)))
    (fun tid => merge_on tid (vss.map (fun b => mk_bbox_wire env b tid)))

/-- Parameters and technology configuration consumed by `draw_layout`. -/
structure DrawParams where
  topLayerParam : Option Int
  topLayerDefault : Int
  usedPortLayer : Int
  rectArrList : List RectArr
deriving Repr

/-- `ClampStatic.draw_layout`: resolve the top layer, check
`used_port_layer < port_layer`, emit the rectangle arrays, run the routing
section, and publish the final VDD/VSS wires as connectable pins plus the
hidden NC rectangle pins.  On any error no pin is published. -/
def draw_layout (P : DrawParams) (env : Env) (bbox : BBoxI)
    (vdd vss nc : List BBoxI) : Outcome :=
  let top := resolve_top_layer P.topLayerParam P.topLayerDefault
  let portLayer := top
  let used := P.usedPortLayer
  if used < portLayer then
    let rects := P.rectArrList.map (emit_rect bbox)
    let r := route_all env used top vdd vss
    match r.err with
    | some e =>
      { topLayer := top, connLayer := portLayer, err := some e, rectArrays := rects,
        firstHop := r.firstHop, routedLayers := r.routed, counts := r.counts,
        spreads := r.spreads, pins := [] }
    | none =>
      { topLayer := top, connLayer := portLayer, err := none, rectArrays := rects,
        firstHop := r.firstHop, routedLayers := r.routed, counts := r.counts,
        spreads := r.spreads,
        pins := { net := "VDD", geom := .wire r.plus, hidden := false, connect := true } ::
          { net := "VSS", geom := .wire r.minus, hidden := false, connect := true } ::
          nc.map (fun b =>
            { net := "NC", geom := .rect used b, hidden := true, connect := false }) }
  else
    { topLayer := top, connLayer := portLayer, err := some .configError, rectArrays := [],
      firstHop := none, routedLayers := [], counts := [], spreads := [], pins := [] }

/-! ### Schematic template (`SchTemplate.add_instance`) -/

/-- A schematic instance: master identity, connections, placement. -/
structure SchInst where
  lib : String
  cell : String
  conns : List (String × String)
  x : Int
  y : Int
deriving Repr, DecidableEq

/-- A schematic module: the placeholder instance name and the named
instance list. -/
structure SchMod where
  prevName : String
  insts : List (String × SchInst)
deriving Repr, DecidableEq

/-- Errors of `add_instance`: the `ValueError` demanding both names, the
`ValueError('Not currently supported')` on the `module_cls` path, and a
missing placeholder during arraying. -/
inductive SchErr where
  | missingNames
  | unsupported
  | instNotFound
deriving Repr, DecidableEq

/-- First instance registered under a name. -/
def lookup_inst (m : SchMod) (nm : String) : Option SchInst :=
  (m.insts.find? (fun e => e.1 == nm)).map (fun e => e.2)

/-- `Module.array_instance(prev, names, dx, dy)`: replace the instance named
`prev` by one copy per entry of `names`, the k-th offset by `(k*dx, k*dy)`. -/
def array_instance (m : SchMod) (prev : String) (names : List String)
    (dx dy : Int) : Except SchErr SchMod :=
  match lookup_inst m prev with
  | none => .error .instNotFound
  | some inst =>
    let copies := names.enum.map (fun e =>
      (e.2, { inst with x := inst.x + (e.1 : Int) * dx, y := inst.y + (e.1 : Int) * dy }))
    .ok { m with insts := m.insts.filter (fun e => !(e.1 == prev)) ++ copies }

/-- `Module.rename_instance(old, nw)`. -/
def rename_instance (m : SchMod) (old nw : String) : SchMod :=
  { m with insts := m.insts.map (fun e => if e.1 = old then (nw, e.2) else e) }

/-- `Module.replace_instance_master(nm, lib, cell)`. -/
def replace_instance_master (m : SchMod) (nm lib cell : String) : SchMod :=
  { m with insts := m.insts.map (fun e =>
      if e.1 = nm then (e.1, { e.2 with lib := lib, cell := cell }) else e) }

/-- Update one terminal connection, replacing an existing binding or
appending a new one. -/
def set_conn (cs : List (String × String)) (t n : String) : List (String × String) :=
  if cs.any (fun c => c.1 == t) then cs.map (fun c => if c.1 = t then (t, n) else c)
  else cs ++ [(t, n)]

/-- `Module.reconnect_instance(nm, conns)`. -/
def reconnect_instance (m : SchMod) (nm : String)
    (conns : List (String × String)) : SchMod :=
  { m with insts := m.insts.map (fun e =>
      if e.1 = nm then
        (e.1, { e.2 with conns := conns.foldl (fun acc c => set_conn acc c.1 c.2) e.2.conns })
      else e) }

/-- `SchTemplate.add_instance` (source lines 112-149): require both names
when no module class is given; force `dx = 1` when both offsets are zero;
array the placeholder into `['X_0', inst_name]`; restore the placeholder
name; reject the direct module-class path; otherwise replace the new
instance's master and reconnect it. -/
def add_instance (m : SchMod) (instName libName cellName : String)
    (conns : List (String × String)) (dx dy : Int) (moduleCls : Option Unit) :
    Except SchErr SchMod :=
  if moduleCls.isNone && (libName == "" || cellName == "") then
    .error .missingNames
  else
    let dx := if dx = 0 ∧ dy = 0 then 1 else dx
    match array_instance m m.prevName ["X_0", instName] dx dy with
    | .error e => .error e
    | .ok m1 =>
      let m2 := rename_instance m1 "X_0" m.prevName
      match moduleCls with
      | some _ => .error .unsupported
      | none =>
        let m3 := replace_instance_master m2 instName libName cellName
        if conns.isEmpty then .ok m3 else .ok (reconnect_instance m3 instName conns)

/-! ### Concrete configurations for evaluations -/

/-- A concrete affine-grid host environment: pitch 10 and offset 0 on every
layer, supply width 1, zero-offset supply wire bounds `(0, 4)` (so the shrink
`ext = 2`), a constant fit count of 2 and an arithmetic spread. -/
def exEnv : Env :=
  { get_direction := fun _ => .y
    track_pitch := fun _ => 10
    track_offset := fun _ => 0
    get_wire_bounds := fun _ _ => (0, 4)
    get_width := fun _ => 1
    get_num_wires_between := fun _ _ _ => 2
    spread_wires := fun _ n l _ => (List.range n).map (fun i => l + (i : Int))
    conn_bbox_extent := fun b _ => (b.yl, b.yh)
    conn_wire_extent := fun w _ => (w.lower, w.upper) }

/-- Variant of `exEnv` whose fit-count query reports a deficit everywhere,
making every routed layer infeasible (guarded count `-5 + 2 = -3 < 2`). -/
def exEnvBad : Env := { exEnv with get_num_wires_between := fun _ _ _ => -5 }

/-- Concrete parameters: default top layer 4, used port layer 2, no
rectangle arrays. -/
def exParams : DrawParams :=
  { topLayerParam := none, topLayerDefault := 4, usedPortLayer := 2, rectArrList := [] }

/-- A rectangle-array spec with zero pitches, no margins and unit size 5. -/
def exRectArr : RectArr :=
  { marginXl := 0, marginXh := 0, marginYl := 0, marginYh := 0,
    spx := 0, spy := 0, wUnit := 5, hUnit := 5, layPurp := ("M1", "drawing") }

/-- Parameters carrying `exRectArr`, used port layer 1, top layer 2. -/
def exParamsRect : DrawParams :=
  { topLayerParam := none, topLayerDefault := 2, usedPortLayer := 1,
    rectArrList := [exRectArr] }

/-- Parameters supplying the explicit top-layer value `0`. -/
def exParamsZero : DrawParams :=
  { topLayerParam := some 0, topLayerDefault := 3, usedPortLayer := 1, rectArrList := [] }

/-- A concrete core bounding box. -/
def exBBox : BBoxI := { xl := 0, yl := 0, xh := 100, yh := 100 }

/-- Concrete VDD pin rectangles on the used port layer. -/
def exVdd : List BBoxI := [⟨0, 10, 5, 20⟩, ⟨0, 40, 5, 50⟩]

/-- Concrete VSS pin rectangles on the used port layer. -/
def exVss : List BBoxI := [⟨0, 60, 5, 70⟩]

/-- A supply pin rectangle whose extent `[3, 47]` is off the track grid
after the `ext = 2` shrink (window `[5, 45]`). -/
def exPinOff : List BBoxI := [⟨0, 3, 5, 47⟩]

/-! ### Helper lemmas -/

theorem list_map_id_on {α : Type} (f : α → α) :
    ∀ (l : List α), (∀ e ∈ l, f e = e) → l.map f = l := by
  intro l h
  induction l with
  | nil => rfl
  | cons a t ih =>
    simp only [List.map_cons]
    rw [h a (by simp), ih (fun e he => h e (by simp [he]))]

/-! ### Claim theorems for `SchTemplate.add_instance` -/

/-- C9: `add_instance` fails with the unsupported-operation error whenever a
module class is passed directly, and fails with the error requiring both
names whenever no module class is passed and the library or cell name is
empty. -/
theorem add_instance_error_paths (m : SchMod) (i l c : String)
    (cs : List (String × String)) (dx dy : Int) :
    ((lookup_inst m m.prevName).isSome = true →
      add_instance m i l c cs dx dy (some ()) = Except.error SchErr.unsupported)
    ∧ ((l = "" ∨ c = "") →
      add_instance m i l c cs dx dy none = Except.error SchErr.missingNames) := by
  constructor
  · intro h
    obtain ⟨inst, hi⟩ := Option.isSome_iff_exists.mp h
    simp [add_instance, array_instance, hi]
  · intro h
    rcases h with h | h <;> simp [add_instance, h]

/-- C9 witness at a concrete module. -/
theorem add_instance_error_paths_witness :
    add_instance
      { prevName := "XINST",
        insts := [("XINST", { lib := "a", cell := "b", conns := [], x := 0, y := 0 })] }
      "XI" "lib" "cell" [] 0 0 (some ()) = Except.error SchErr.unsupported :=
  (add_instance_error_paths _ "XI" "lib" "cell" [] 0 0).1 (by decide)

/-- C10: with both offsets zero, `add_instance` silently bumps `dx` to 1, so
the arrayed new instance lands at a nonzero offset from the placeholder,
and the placeholder is restored under its original name. -/
theorem add_instance_zero_offset (m : SchMod) (inst0 : SchInst) (i l c : String)
    (hm : lookup_inst m m.prevName = some inst0)
    (hfi : lookup_inst m i = none)
    (hfx : lookup_inst m "X_0" = none)
    (hi0 : i ≠ "X_0") (hip : i ≠ m.prevName)
    (hl : l ≠ "") (hc : c ≠ "") :
    ∃ m2, add_instance m i l c [] 0 0 none = Except.ok m2
      ∧ lookup_inst m2 m.prevName = some inst0
      ∧ lookup_inst m2 i =
          some { lib := l, cell := c, conns := inst0.conns, x := inst0.x + 1, y := inst0.y }
      ∧ inst0.x + 1 ≠ inst0.x := by
  have hbl : (l == "") = false := by simp [hl]
  have hbc : (c == "") = false := by simp [hc]
  have hpi : m.prevName ≠ i := Ne.symm hip
  have hxx : (m.insts.find? (fun e => e.1 == "X_0")) = none := by
    by_contra hne
    obtain ⟨e, he⟩ := Option.ne_none_iff_exists'.mp hne
    simp [lookup_inst, he] at hfx
  have hxi : (m.insts.find? (fun e => e.1 == i)) = none := by
    by_contra hne
    obtain ⟨e, he⟩ := Option.ne_none_iff_exists'.mp hne
    simp [lookup_inst, he] at hfi
  have hF1 : ∀ e ∈ m.insts.filter (fun e => !(e.1 == m.prevName)), e.1 ≠ "X_0" := by
    intro e he
    have := List.find?_eq_none.mp hxx e (List.mem_filter.mp he).1
    simpa using this
  have hF2 : ∀ e ∈ m.insts.filter (fun e => !(e.1 == m.prevName)), e.1 ≠ i := by
    intro e he
    have := List.find?_eq_none.mp hxi e (List.mem_filter.mp he).1
    simpa using this
  have hF3 : ∀ e ∈ m.insts.filter (fun e => !(e.1 == m.prevName)), e.1 ≠ m.prevName := by
    intro e he
    have := (List.mem_filter.mp he).2
    simpa using this
  have h1 : add_instance m i l c [] 0 0 none =
      Except.ok (replace_instance_master (rename_instance
        { m with insts := m.insts.filter (fun e => !(e.1 == m.prevName)) ++
            [("X_0", inst0), (i, { inst0 with x := inst0.x + 1 })] }
        "X_0" m.prevName) i l c) := by
    simp [add_instance, hbl, hbc, array_instance, hm, List.enum, List.enumFrom]
  have hren : rename_instance
      { m with insts := m.insts.filter (fun e => !(e.1 == m.prevName)) ++
          [("X_0", inst0), (i, { inst0 with x := inst0.x + 1 })] }
      "X_0" m.prevName =
      { m with insts := m.insts.filter (fun e => !(e.1 == m.prevName)) ++
          [(m.prevName, inst0), (i, { inst0 with x := inst0.x + 1 })] } := by
    simp only [rename_instance, List.map_append]
    rw [list_map_id_on _ _ (fun e he => by simp [hF1 e he])]
    simp [hi0]
  have hrep : replace_instance_master
      { m with insts := m.insts.filter (fun e => !(e.1 == m.prevName)) ++
          [(m.prevName, inst0), (i, { inst0 with x := inst0.x + 1 })] }
      i l c =
      { m with insts := m.insts.filter (fun e => !(e.1 == m.prevName)) ++
          [(m.prevName, inst0),
           (i, { lib := l, cell := c, conns := inst0.conns, x := inst0.x + 1, y := inst0.y })] } := by
    simp only [replace_instance_master, List.map_append]
    rw [list_map_id_on _ _ (fun e he => by simp [hF2 e he])]
    simp [hpi]
  refine ⟨_, h1, ?_, ?_, by omega⟩
  · rw [hren, hrep]
    have hnone : List.find? (fun e => e.1 == m.prevName)
        (m.insts.filter (fun e => !(e.1 == m.prevName))) = none :=
      List.find?_eq_none.mpr (fun e he => by simp [hF3 e he])
    simp only [lookup_inst, List.find?_append, hnone, Option.none_or]
    rw [List.find?_cons_of_pos _ (by simp)]
    rfl
  · rw [hren, hrep]
    have hnone : List.find? (fun e => e.1 == i)
        (m.insts.filter (fun e => !(e.1 == m.prevName))) = none :=
      List.find?_eq_none.mpr (fun e he => by simp [hF2 e he])
    simp only [lookup_inst, List.find?_append, hnone, Option.none_or]
    rw [List.find?_cons_of_neg _ (by simp [hpi]), List.find?_cons_of_pos _ (by simp)]
    rfl

/-- C10 witness at a concrete module. -/
theorem add_instance_zero_offset_witness :
    ∃ m2, add_instance
        { prevName := "XINST",
          insts := [("XINST", { lib := "a", cell := "b", conns := [], x := 3, y := 7 })] }
        "XI" "lib" "cell" [] 0 0 none = Except.ok m2
      ∧ lookup_inst m2 "XINST" = some { lib := "a", cell := "b", conns := [], x := 3, y := 7 }
      ∧ lookup_inst m2 "XI" =
          some { lib := "lib", cell := "cell", conns := [], x := 4, y := 7 }
      ∧ (3 : Int) + 1 ≠ 3 :=
  add_instance_zero_offset
    { prevName := "XINST",
      insts := [("XINST", { lib := "a", cell := "b", conns := [], x := 3, y := 7 })] }
    { lib := "a", cell := "b", conns := [], x := 3, y := 7 }
    "XI" "lib" "cell" (by decide) (by decide) (by decide) (by decide) (by decide)
    (by decide) (by decide)
/-! ### Helper lemmas: integer ranges -/

theorem mem_int_range : ∀ {n : Nat} {a L : Int},
    L ∈ int_range a n ↔ a ≤ L ∧ L < a + (n : Int) := by
  intro n
  induction n with
  | zero => intro a L; simp [int_range]
  | succ k ih =>
    intro a L
    simp only [int_range, List.mem_cons, ih]
    push_cast
    omega

theorem int_range_getLastD (a : Int) (n : Nat) (d : Int) :
    (int_range a (n + 1)).getLastD d = a + (n : Int) := by
  induction n generalizing a d with
  | zero => simp [int_range]
  | succ k ih =>
    show (a :: int_range (a + 1) (k + 1)).getLastD d = _
    rw [List.getLastD_cons, ih]
    push_cast
    ring

theorem int_range_pairwise (a : Int) (n : Nat) :
    (int_range a n).Pairwise (· < ·) := by
  induction n generalizing a with
  | zero => exact List.Pairwise.nil
  | succ k ih =>
    refine List.Pairwise.cons ?_ (ih (a + 1))
    intro b hb
    have := (mem_int_range.mp hb).1
    omega

/-! ### Helper lemmas: the upward-routing loop -/

theorem route_layer_facts (env : Env) (L : Int) (plus minus : Wire) :
    (route_layer env L plus minus).plus.layer = L ∧
    (route_layer env L plus minus).minus.layer = L ∧
    (route_layer env L plus minus).sp.vddIdx =
      (route_layer env L plus minus).sp.idxList.getD 0 0 ∧
    (route_layer env L plus minus).sp.vssIdx =
      (route_layer env L plus minus).sp.idxList.getD 1 0 := by
  simp [route_layer]

theorem route_up_err_cases (env : Env) : ∀ (layers : List Int) (plus minus : Wire),
    (route_up env layers plus minus).err = none ∨
    ∃ L n, (route_up env layers plus minus).err = some (DrawErr.routingInfeasible L) ∧
      (L, n) ∈ (route_up env layers plus minus).counts ∧ n < 2 := by
  intro layers
  induction layers with
  | nil => intro plus minus; left; rfl
  | cons L rest ih =>
    intro plus minus
    by_cases hc : (route_layer env L plus minus).num < 2
    · right
      refine ⟨L, (route_layer env L plus minus).num, ?_, ?_, hc⟩ <;>
        simp [route_up, if_pos hc]
    · rcases ih (route_layer env L plus minus).plus (route_layer env L plus minus).minus with
        h | ⟨L', n', h1, h2, h3⟩
      · left; simpa [route_up, if_neg hc] using h
      · right
        refine ⟨L', n', ?_, ?_, h3⟩
        · simpa [route_up, if_neg hc] using h1
        · simp [route_up, if_neg hc, h2]

theorem route_up_none (env : Env) : ∀ (layers : List Int) (plus minus : Wire),
    (route_up env layers plus minus).err = none →
    (route_up env layers plus minus).routed = layers ∧
    (∀ c ∈ (route_up env layers plus minus).counts, ¬ c.2 < 2) ∧
    (route_up env layers plus minus).plus.layer = layers.getLastD plus.layer ∧
    (route_up env layers plus minus).minus.layer = layers.getLastD minus.layer := by
  intro layers
  induction layers with
  | nil => intro plus minus _; exact ⟨rfl, by simp [route_up], rfl, rfl⟩
  | cons L rest ih =>
    intro plus minus h
    by_cases hc : (route_layer env L plus minus).num < 2
    · simp [route_up, if_pos hc] at h
    · simp only [route_up, if_neg hc] at h ⊢
      rcases ih (route_layer env L plus minus).plus (route_layer env L plus minus).minus h with
        ⟨hr, hcnt, hp, hm⟩
      refine ⟨by simp [hr], ?_, ?_, ?_⟩
      · intro c hc'
        simp only [List.mem_cons] at hc'
        rcases hc' with rfl | hc'
        · simpa using hc
        · exact hcnt c hc'
      · rw [List.getLastD_cons, hp, (route_layer_facts env L plus minus).1]
      · rw [List.getLastD_cons, hm, (route_layer_facts env L plus minus).2.1]

theorem route_up_bad (env : Env) (layers : List Int) (plus minus : Wire)
    (h : ∃ c ∈ (route_up env layers plus minus).counts, c.2 < 2) :
    ∃ L, (route_up env layers plus minus).err = some (DrawErr.routingInfeasible L) := by
  rcases route_up_err_cases env layers plus minus with h0 | ⟨L, n, h1, _, _⟩
  · obtain ⟨c, hc, hlt⟩ := h
    exact absurd hlt ((route_up_none env layers plus minus h0).2.1 c hc)
  · exact ⟨L, h1⟩

theorem route_up_spreads (env : Env) : ∀ (layers : List Int) (plus minus : Wire),
    ∀ s ∈ (route_up env layers plus minus).spreads,
      s.vddIdx = s.idxList.getD 0 0 ∧ s.vssIdx = s.idxList.getD 1 0 := by
  intro layers
  induction layers with
  | nil => intro plus minus s hs; simp [route_up] at hs
  | cons L rest ih =>
    intro plus minus s hs
    by_cases hc : (route_layer env L plus minus).num < 2
    · simp [route_up, if_pos hc] at hs
    · simp only [route_up, if_neg hc, List.mem_cons] at hs
      rcases hs with rfl | hs
      · exact ⟨(route_layer_facts env L plus minus).2.2.1,
          (route_layer_facts env L plus minus).2.2.2⟩
      · exact ih _ _ s hs

/-! ### Helper lemmas: folds, merges and the first hop -/

instance : RightCommutative omax :=
  ⟨by
    intro b a1 a2
    cases b with
    | none => simp [omax, max_comm]
    | some v => simp only [omax]; rw [max_assoc, max_comm a1 a2, ← max_assoc]⟩

instance : RightCommutative omin :=
  ⟨by
    intro b a1 a2
    cases b with
    | none => simp [omin, min_comm]
    | some v => simp only [omin]; rw [min_assoc, min_comm a1 a2, ← min_assoc]⟩

theorem pyMaxO_perm {l1 l2 : List Int} (h : l1.Perm l2) : pyMaxO l1 = pyMaxO l2 :=
  h.foldl_eq none

theorem pyMinO_perm {l1 l2 : List Int} (h : l1.Perm l2) : pyMinO l1 = pyMinO l2 :=
  h.foldl_eq none

theorem foldl_omin_isSome : ∀ (l : List Int) (a : Int), ∃ v, l.foldl omin (some a) = some v := by
  intro l
  induction l with
  | nil => exact fun a => ⟨a, rfl⟩
  | cons x t ih => intro a; simpa [omin] using ih (min a x)

theorem foldl_omax_isSome : ∀ (l : List Int) (a : Int), ∃ v, l.foldl omax (some a) = some v := by
  intro l
  induction l with
  | nil => exact fun a => ⟨a, rfl⟩
  | cons x t ih => intro a; simpa [omax] using ih (max a x)

theorem pyMinO_ne_none {l : List Int} (h : l ≠ []) : pyMinO l ≠ none := by
  cases l with
  | nil => exact absurd rfl h
  | cons x t =>
    obtain ⟨v, hv⟩ := foldl_omin_isSome t x
    simp [pyMinO, omin, hv]

theorem pyMaxO_ne_none {l : List Int} (h : l ≠ []) : pyMaxO l ≠ none := by
  cases l with
  | nil => exact absurd rfl h
  | cons x t =>
    obtain ⟨v, hv⟩ := foldl_omax_isSome t x
    simp [pyMaxO, omax, hv]

theorem merge_on_none {tid : TrackID} {ws : List Wire}
    (h : merge_on tid ws = none) : ws = [] := by
  cases ws with
  | nil => rfl
  | cons w t =>
    exfalso
    obtain ⟨v1, h1⟩ := Option.ne_none_iff_exists'.mp
      (pyMinO_ne_none (l := (w :: t).map Wire.lower) (by simp))
    obtain ⟨v2, h2⟩ := Option.ne_none_iff_exists'.mp
      (pyMaxO_ne_none (l := (w :: t).map Wire.upper) (by simp))
    simp only [List.map_cons] at h1 h2
    simp [merge_on, h1, h2] at h

theorem merge_on_layer {tid : TrackID} {ws : List Wire} {w : Wire}
    (h : merge_on tid ws = some w) : w.layer = tid.layer := by
  rcases h1 : pyMinO (ws.map Wire.lower) with _ | lo <;>
    rcases h2 : pyMaxO (ws.map Wire.upper) with _ | hi <;>
    simp [merge_on, h1, h2] at h
  rw [← h]

theorem first_hop_facts (env : Env) (used : Int) (win : Int × Int) :
    (first_hop env used win).fh.lIdx =
      coord_to_track env (used + 1) (first_hop env used win).fh.hmLower .greaterEq ∧
    (first_hop env used win).fh.rIdx =
      coord_to_track env (used + 1) (first_hop env used win).fh.hmUpper .lessEq ∧
    (first_hop env used win).sp.vddIdx = (first_hop env used win).sp.idxList.getD 0 0 ∧
    (first_hop env used win).sp.vssIdx = (first_hop env used win).sp.idxList.getD 1 0 ∧
    (first_hop env used win).ptid.layer = used + 1 ∧
    (first_hop env used win).mtid.layer = used + 1 := by
  simp [first_hop]

/-! ### Helper lemmas: the routing section -/

theorem core_err_routing (env : Env) (used top : Int) (isEmp : Bool) (win : Int × Int)
    (plusOf minusOf : TrackID → Option Wire) (L : Int)
    (h : (route_all_core env used top isEmp win plusOf minusOf).err =
      some (DrawErr.routingInfeasible L)) :
    ∃ n, (L, n) ∈ (route_all_core env used top isEmp win plusOf minusOf).counts ∧ n < 2 := by
  cases isEmp with
  | true => simp [route_all_core] at h
  | false =>
    by_cases hnum : (first_hop env used win).num < 2
    · simp only [route_all_core, Bool.false_eq_true, if_false, if_pos hnum,
        Option.some.injEq, DrawErr.routingInfeasible.injEq] at h ⊢
      exact ⟨(first_hop env used win).num, by simp [h], hnum⟩
    · rcases hp : plusOf (first_hop env used win).ptid with _ | pw
      · simp [route_all_core, if_neg hnum, hp] at h
      · rcases hm : minusOf (first_hop env used win).mtid with _ | mw
        · simp [route_all_core, if_neg hnum, hp, hm] at h
        · simp only [route_all_core, Bool.false_eq_true, if_false, if_neg hnum, hp, hm] at h ⊢
          rcases route_up_err_cases env
              (int_range (used + 1 + 1) (top - (used + 1)).toNat) pw mw with
            h0 | ⟨L', n', h1, h2, h3⟩
          · rw [h0] at h; exact absurd h (by simp)
          · rw [h1] at h
            simp only [Option.some.injEq, DrawErr.routingInfeasible.injEq] at h
            subst h
            exact ⟨n', List.mem_cons_of_mem _ h2, h3⟩

theorem core_bad (env : Env) (used top : Int) (isEmp : Bool) (win : Int × Int)
    (plusOf minusOf : TrackID → Option Wire)
    (h : ∃ c ∈ (route_all_core env used top isEmp win plusOf minusOf).counts, c.2 < 2) :
    ∃ L, (route_all_core env used top isEmp win plusOf minusOf).err =
      some (DrawErr.routingInfeasible L) := by
  cases isEmp with
  | true => simp [route_all_core] at h
  | false =>
    by_cases hnum : (first_hop env used win).num < 2
    · exact ⟨used + 1, by simp [route_all_core, if_pos hnum]⟩
    · rcases hp : plusOf (first_hop env used win).ptid with _ | pw
      · simp [route_all_core, if_neg hnum, hp] at h
        exact absurd h hnum
      · rcases hm : minusOf (first_hop env used win).mtid with _ | mw
        · simp [route_all_core, if_neg hnum, hp, hm] at h
          exact absurd h hnum
        · simp only [route_all_core, Bool.false_eq_true, if_false, if_neg hnum, hp, hm,
            List.mem_cons] at h ⊢
          obtain ⟨c, hc, hlt⟩ := h
          rcases hc with rfl | hc
          · exact absurd hlt hnum
          · obtain ⟨L, hL⟩ := route_up_bad env _ pw mw ⟨c, hc, hlt⟩
            exact ⟨L, hL⟩

theorem core_ne_config (env : Env) (used top : Int) (isEmp : Bool) (win : Int × Int)
    (plusOf minusOf : TrackID → Option Wire) :
    (route_all_core env used top isEmp win plusOf minusOf).err ≠
      some DrawErr.configError := by
  cases isEmp with
  | true => simp [route_all_core]
  | false =>
    by_cases hnum : (first_hop env used win).num < 2
    · simp [route_all_core, if_pos hnum]
    · rcases hp : plusOf (first_hop env used win).ptid with _ | pw
      · simp [route_all_core, if_neg hnum, hp]
      · rcases hm : minusOf (first_hop env used win).mtid with _ | mw
        · simp [route_all_core, if_neg hnum, hp, hm]
        · simp only [route_all_core, Bool.false_eq_true, if_false, if_neg hnum, hp, hm]
          rcases route_up_err_cases env
              (int_range (used + 1 + 1) (top - (used + 1)).toNat) pw mw with
            h0 | ⟨L', n', h1, _, _⟩
          · rw [h0]; simp
          · rw [h1]; simp

theorem core_err_empty (env : Env) (used top : Int) (isEmp : Bool) (win : Int × Int)
    (plusOf minusOf : TrackID → Option Wire)
    (h : (route_all_core env used top isEmp win plusOf minusOf).err =
      some DrawErr.emptyPins) :
    isEmp = true ∨ plusOf (first_hop env used win).ptid = none ∨
      minusOf (first_hop env used win).mtid = none := by
  cases isEmp with
  | true => exact Or.inl rfl
  | false =>
    by_cases hnum : (first_hop env used win).num < 2
    · simp [route_all_core, if_pos hnum] at h
    · rcases hp : plusOf (first_hop env used win).ptid with _ | pw
      · exact Or.inr (Or.inl rfl)
      · rcases hm : minusOf (first_hop env used win).mtid with _ | mw
        · exact Or.inr (Or.inr rfl)
        · exfalso
          simp only [route_all_core, Bool.false_eq_true, if_false, if_neg hnum, hp, hm] at h
          rcases route_up_err_cases env
              (int_range (used + 1 + 1) (top - (used + 1)).toNat) pw mw with
            h0 | ⟨L', n', h1, _, _⟩
          · rw [h0] at h; exact absurd h (by simp)
          · rw [h1] at h; exact absurd h (by simp)

theorem core_firstHop (env : Env) (used top : Int) (isEmp : Bool) (win : Int × Int)
    (plusOf minusOf : TrackID → Option Wire) (fh : FirstHopRec)
    (h : (route_all_core env used top isEmp win plusOf minusOf).firstHop = some fh) :
    fh = (first_hop env used win).fh := by
  cases isEmp with
  | true => simp [route_all_core] at h
  | false =>
    by_cases hnum : (first_hop env used win).num < 2
    · simp [route_all_core, if_pos hnum] at h; exact h.symm
    · rcases hp : plusOf (first_hop env used win).ptid with _ | pw
      · simp [route_all_core, if_neg hnum, hp] at h; exact h.symm
      · rcases hm : minusOf (first_hop env used win).mtid with _ | mw
        · simp [route_all_core, if_neg hnum, hp, hm] at h; exact h.symm
        · simp [route_all_core, if_neg hnum, hp, hm] at h; exact h.symm

theorem core_spreads (env : Env) (used top : Int) (isEmp : Bool) (win : Int × Int)
    (plusOf minusOf : TrackID → Option Wire) :
    ∀ s ∈ (route_all_core env used top isEmp win plusOf minusOf).spreads,
      s.vddIdx = s.idxList.getD 0 0 ∧ s.vssIdx = s.idxList.getD 1 0 := by
  cases isEmp with
  | true => intro s hs; simp [route_all_core] at hs
  | false =>
    by_cases hnum : (first_hop env used win).num < 2
    · intro s hs; simp [route_all_core, if_pos hnum] at hs
    · rcases hp : plusOf (first_hop env used win).ptid with _ | pw
      · intro s hs
        simp [route_all_core, if_neg hnum, hp] at hs
        subst hs
        exact ⟨(first_hop_facts env used win).2.2.1, (first_hop_facts env used win).2.2.2.1⟩
      · rcases hm : minusOf (first_hop env used win).mtid with _ | mw
        · intro s hs
          simp [route_all_core, if_neg hnum, hp, hm] at hs
          subst hs
          exact ⟨(first_hop_facts env used win).2.2.1, (first_hop_facts env used win).2.2.2.1⟩
        · intro s hs
          simp only [route_all_core, Bool.false_eq_true, if_false, if_neg hnum, hp, hm,
            List.mem_cons] at hs
          rcases hs with rfl | hs
          · exact ⟨(first_hop_facts env used win).2.2.1, (first_hop_facts env used win).2.2.2.1⟩
          · exact route_up_spreads env _ pw mw s hs

theorem core_none (env : Env) (used top : Int) (isEmp : Bool) (win : Int × Int)
    (plusOf minusOf : TrackID → Option Wire)
    (hpl : ∀ tid w, plusOf tid = some w → w.layer = tid.layer)
    (hml : ∀ tid w, minusOf tid = some w → w.layer = tid.layer)
    (h : (route_all_core env used top isEmp win plusOf minusOf).err = none) :
    (route_all_core env used top isEmp win plusOf minusOf).routed =
      (used + 1) :: int_range (used + 1 + 1) (top - (used + 1)).toNat ∧
    (∀ c ∈ (route_all_core env used top isEmp win plusOf minusOf).counts, ¬ c.2 < 2) ∧
    (route_all_core env used top isEmp win plusOf minusOf).plus.layer =
      (int_range (used + 1 + 1) (top - (used + 1)).toNat).getLastD (used + 1) ∧
    (route_all_core env used top isEmp win plusOf minusOf).minus.layer =
      (int_range (used + 1 + 1) (top - (used + 1)).toNat).getLastD (used + 1) := by
  cases isEmp with
  | true => simp [route_all_core] at h
  | false =>
    by_cases hnum : (first_hop env used win).num < 2
    · simp [route_all_core, if_pos hnum] at h
    · rcases hp : plusOf (first_hop env used win).ptid with _ | pw
      · simp [route_all_core, if_neg hnum, hp] at h
      · rcases hm : minusOf (first_hop env used win).mtid with _ | mw
        · simp [route_all_core, if_neg hnum, hp, hm] at h
        · simp only [route_all_core, Bool.false_eq_true, if_false, if_neg hnum, hp, hm,
            List.mem_cons] at h ⊢
          rcases route_up_none env
              (int_range (used + 1 + 1) (top - (used + 1)).toNat) pw mw h with
            ⟨hr, hcnt, hply, hmly⟩
          refine ⟨by simp [hr], ?_, ?_, ?_⟩
          · intro c hc
            rcases hc with rfl | hc
            · simpa using hnum
            · exact hcnt c hc
          · rw [hply, hpl _ _ hp, (first_hop_facts env used win).2.2.2.2.1]
          · rw [hmly, hml _ _ hm, (first_hop_facts env used win).2.2.2.2.2]

theorem route_all_err_routing (env : Env) (used top : Int) (vdd vss : List BBoxI) (L : Int)
    (h : (route_all env used top vdd vss).err = some (DrawErr.routingInfeasible L)) :
    ∃ n, (L, n) ∈ (route_all env used top vdd vss).counts ∧ n < 2 :=
  core_err_routing env used top _ _ _ _ L h

theorem route_all_bad (env : Env) (used top : Int) (vdd vss : List BBoxI)
    (h : ∃ c ∈ (route_all env used top vdd vss).counts, c.2 < 2) :
    ∃ L, (route_all env used top vdd vss).err = some (DrawErr.routingInfeasible L) :=
  core_bad env used top _ _ _ _ h

theorem route_all_ne_config (env : Env) (used top : Int) (vdd vss : List BBoxI) :
    (route_all env used top vdd vss).err ≠ some DrawErr.configError :=
  core_ne_config env used top _ _ _ _

theorem route_all_spreads (env : Env) (used top : Int) (vdd vss : List BBoxI) :
    ∀ s ∈ (route_all env used top vdd vss).spreads,
      s.vddIdx = s.idxList.getD 0 0 ∧ s.vssIdx = s.idxList.getD 1 0 :=
  core_spreads env used top _ _ _ _

theorem route_all_none (env : Env) (used top : Int) (vdd vss : List BBoxI)
    (h : (route_all env used top vdd vss).err = none) :
    (route_all env used top vdd vss).routed =
      (used + 1) :: int_range (used + 1 + 1) (top - (used + 1)).toNat ∧
    (∀ c ∈ (route_all env used top vdd vss).counts, ¬ c.2 < 2) ∧
    (route_all env used top vdd vss).plus.layer =
      (int_range (used + 1 + 1) (top - (used + 1)).toNat).getLastD (used + 1) ∧
    (route_all env used top vdd vss).minus.layer =
      (int_range (used + 1 + 1) (top - (used + 1)).toNat).getLastD (used + 1) :=
  core_none env used top _ _ _ _
    (fun _ _ hw => merge_on_layer hw) (fun _ _ hw => merge_on_layer hw) h

theorem route_all_err_empty (env : Env) (used top : Int) (vdd vss : List BBoxI)
    (h : (route_all env used top vdd vss).err = some DrawErr.emptyPins) :
    (vss ++ vdd).isEmpty = true ∨
    merge_on (first_hop env used (supply_window env used (vss ++ vdd))).ptid
      (vdd.map (fun b =>
        mk_bbox_wire env b (first_hop env used (supply_window env used (vss ++ vdd))).ptid)) =
      none ∨
    merge_on (first_hop env used (supply_window env used (vss ++ vdd))).mtid
      (vss.map (fun b =>
        mk_bbox_wire env b (first_hop env used (supply_window env used (vss ++ vdd))).mtid)) =
      none :=
  core_err_empty env used top _ _ _ _ h

theorem route_all_firstHop (env : Env) (used top : Int) (vdd vss : List BBoxI)
    (fh : FirstHopRec)
    (h : (route_all env used top vdd vss).firstHop = some fh) :
    fh = (first_hop env used (supply_window env used (vss ++ vdd))).fh :=
  core_firstHop env used top _ _ _ _ fh h

/-! ### Helper lemmas: permutation invariance -/

theorem perm_isEmpty_eq {α : Type} {l1 l2 : List α} (h : l1.Perm l2) :
    l1.isEmpty = l2.isEmpty := by
  cases l1 with
  | nil =>
    cases l2 with
    | nil => rfl
    | cons b t => exact absurd h (List.not_perm_nil_cons b t)
  | cons a t =>
    cases l2 with
    | nil => exact absurd h.symm (List.not_perm_nil_cons a t)
    | cons b u => rfl

theorem supply_window_perm (env : Env) (used : Int) {c1 c2 : List BBoxI} (h : c1.Perm c2) :
    supply_window env used c1 = supply_window env used c2 := by
  rcases hdir : env.get_direction used with _ | _ <;>
    simp only [supply_window, hdir] <;>
    rw [pyMaxO_perm (h.map _), pyMinO_perm (h.map _)]

theorem merge_on_perm (tid : TrackID) {ws1 ws2 : List Wire} (h : ws1.Perm ws2) :
    merge_on tid ws1 = merge_on tid ws2 := by
  unfold merge_on
  rw [pyMinO_perm (h.map _), pyMaxO_perm (h.map _)]

theorem route_all_perm (env : Env) (used top : Int) {vdd1 vdd2 vss1 vss2 : List BBoxI}
    (h1 : vdd1.Perm vdd2) (h2 : vss1.Perm vss2) :
    route_all env used top vdd1 vss1 = route_all env used top vdd2 vss2 := by
  have hc : (vss1 ++ vdd1).Perm (vss2 ++ vdd2) := h2.append h1
  have hf : (fun tid => merge_on tid (vdd1.map (fun b => mk_bbox_wire env b tid))) =
      (fun tid => merge_on tid (vdd2.map (fun b => mk_bbox_wire env b tid))) := by
    funext tid
    exact merge_on_perm tid (h1.map _)
  have hg : (fun tid => merge_on tid (vss1.map (fun b => mk_bbox_wire env b tid))) =
      (fun tid => merge_on tid (vss2.map (fun b => mk_bbox_wire env b tid))) := by
    funext tid
    exact merge_on_perm tid (h2.map _)
  unfold route_all
  rw [perm_isEmpty_eq hc, supply_window_perm env used hc, hf, hg]

/-! ### Helper lemmas: snapping characterization -/

theorem le_fdiv_iff {p : Int} (hp : 0 < p) (j a : Int) : j ≤ a.fdiv p ↔ j * p ≤ a := by
  rw [Int.fdiv_eq_ediv _ (le_of_lt hp)]
  exact Int.le_ediv_iff_mul_le hp

theorem track_coord_le_iff (env : Env) (layer : Int) (hp : 0 < env.track_pitch layer)
    (i c : Int) :
    track_coord env layer i ≤ c ↔ i ≤ coord_to_track env layer c .lessEq := by
  simp only [track_coord, coord_to_track]
  rw [le_fdiv_iff hp]
  constructor <;> intro h <;> linarith

theorem le_track_coord_iff (env : Env) (layer : Int) (hp : 0 < env.track_pitch layer)
    (i c : Int) :
    c ≤ track_coord env layer i ↔ coord_to_track env layer c .greaterEq ≤ i := by
  simp only [track_coord, coord_to_track]
  rw [neg_le, le_fdiv_iff hp, neg_mul]
  constructor <;> intro h <;> linarith

/-! ### Helper lemmas: `draw_layout` characterization -/

theorem draw_config (P : DrawParams) (env : Env) (bbox : BBoxI) (vdd vss nc : List BBoxI)
    (htop : ¬ P.usedPortLayer < resolve_top_layer P.topLayerParam P.topLayerDefault) :
    draw_layout P env bbox vdd vss nc =
      { topLayer := resolve_top_layer P.topLayerParam P.topLayerDefault,
        connLayer := resolve_top_layer P.topLayerParam P.topLayerDefault,
        err := some .configError, rectArrays := [], firstHop := none,
        routedLayers := [], counts := [], spreads := [], pins := [] } := by
  simp [draw_layout, htop]

theorem draw_char (P : DrawParams) (env : Env) (bbox : BBoxI) (vdd vss nc : List BBoxI)
    (htop : P.usedPortLayer < resolve_top_layer P.topLayerParam P.topLayerDefault) :
    (draw_layout P env bbox vdd vss nc).err =
      (route_all env P.usedPortLayer
        (resolve_top_layer P.topLayerParam P.topLayerDefault) vdd vss).err ∧
    (draw_layout P env bbox vdd vss nc).counts =
      (route_all env P.usedPortLayer
        (resolve_top_layer P.topLayerParam P.topLayerDefault) vdd vss).counts ∧
    (draw_layout P env bbox vdd vss nc).routedLayers =
      (route_all env P.usedPortLayer
        (resolve_top_layer P.topLayerParam P.topLayerDefault) vdd vss).routed ∧
    (draw_layout P env bbox vdd vss nc).firstHop =
      (route_all env P.usedPortLayer
        (resolve_top_layer P.topLayerParam P.topLayerDefault) vdd vss).firstHop ∧
    (draw_layout P env bbox vdd vss nc).spreads =
      (route_all env P.usedPortLayer
        (resolve_top_layer P.topLayerParam P.topLayerDefault) vdd vss).spreads ∧
    (draw_layout P env bbox vdd vss nc).rectArrays =
      P.rectArrList.map (emit_rect bbox) ∧
    ((route_all env P.usedPortLayer
        (resolve_top_layer P.topLayerParam P.topLayerDefault) vdd vss).err = none →
      (draw_layout P env bbox vdd vss nc).pins =
        { net := "VDD",
          geom := .wire (route_all env P.usedPortLayer
            (resolve_top_layer P.topLayerParam P.topLayerDefault) vdd vss).plus,
          hidden := false, connect := true } ::
        { net := "VSS",
          geom := .wire (route_all env P.usedPortLayer
            (resolve_top_layer P.topLayerParam P.topLayerDefault) vdd vss).minus,
          hidden := false, connect := true } ::
        nc.map (fun b =>
          { net := "NC", geom := .rect P.usedPortLayer b, hidden := true, connect := false })) ∧
    (∀ e, (route_all env P.usedPortLayer
        (resolve_top_layer P.topLayerParam P.topLayerDefault) vdd vss).err = some e →
      (draw_layout P env bbox vdd vss nc).pins = []) := by
  rcases herr : (route_all env P.usedPortLayer
      (resolve_top_layer P.topLayerParam P.topLayerDefault) vdd vss).err with _ | e <;>
    simp [draw_layout, htop, herr]

theorem draw_topLayer (P : DrawParams) (env : Env) (bbox : BBoxI) (vdd vss nc : List BBoxI) :
    (draw_layout P env bbox vdd vss nc).topLayer =
      resolve_top_layer P.topLayerParam P.topLayerDefault := by
  by_cases htop : P.usedPortLayer < resolve_top_layer P.topLayerParam P.topLayerDefault
  · rcases herr : (route_all env P.usedPortLayer
        (resolve_top_layer P.topLayerParam P.topLayerDefault) vdd vss).err with _ | e <;>
      simp [draw_layout, htop, herr]
  · simp [draw_layout, htop]

theorem filter_connect_nc (used : Int) (nc : List BBoxI) :
    (nc.map (fun b =>
      ({ net := "NC", geom := .rect used b, hidden := true, connect := false } : Pin))).filter
        (fun p => p.connect) = [] := by
  induction nc with
  | nil => rfl
  | cons b t ih => simp [ih]

theorem getLastD_layers_eq_top (used top : Int) (htop : used < top) :
    (int_range (used + 1 + 1) (top - (used + 1)).toNat).getLastD (used + 1) = top := by
  rcases hk : (top - (used + 1)).toNat with _ | k
  · have htopeq : top = used + 1 := by omega
    simp [int_range, htopeq]
  · rw [int_range_getLastD]
    omega

/-! ### Claim theorems for `ClampStatic.draw_layout` -/

/-- C1: at every routed layer the guarded fit count is recorded; a count
below 2 at some routed layer is raised as the routing-infeasible error (and
only then), the error names a layer whose count is below 2, and no pin is
published on that failure. -/
theorem clamp_routing_infeasible (P : DrawParams) (env : Env) (bbox : BBoxI)
    (vdd vss nc : List BBoxI) :
    ((∃ c ∈ (draw_layout P env bbox vdd vss nc).counts, c.2 < 2) ↔
      ∃ L, (draw_layout P env bbox vdd vss nc).err = some (DrawErr.routingInfeasible L)) ∧
    ∀ L, (draw_layout P env bbox vdd vss nc).err = some (DrawErr.routingInfeasible L) →
      (∃ n, (L, n) ∈ (draw_layout P env bbox vdd vss nc).counts ∧ n < 2) ∧
      (draw_layout P env bbox vdd vss nc).pins = [] := by
  by_cases htop : P.usedPortLayer < resolve_top_layer P.topLayerParam P.topLayerDefault
  case neg =>
    rw [draw_config P env bbox vdd vss nc htop]
    constructor
    · simp
    · intro L hL
      simp at hL
  case pos =>
    obtain ⟨he, hc, _, _, _, _, _, hpsome⟩ := draw_char P env bbox vdd vss nc htop
    constructor
    · rw [he, hc]
      constructor
      · intro hbad
        exact route_all_bad env _ _ vdd vss hbad
      · rintro ⟨L, hL⟩
        obtain ⟨n, hm, hlt⟩ := route_all_err_routing env _ _ vdd vss L hL
        exact ⟨(L, n), hm, hlt⟩
    · intro L hL
      rw [he] at hL
      obtain ⟨n, hm, hlt⟩ := route_all_err_routing env _ _ vdd vss L hL
      exact ⟨⟨n, by rw [hc]; exact hm, hlt⟩, hpsome _ hL⟩

/-- C1 witness: a concrete deficient technology raises the error on the
first-hop layer 3 with its recorded count below 2 and publishes no pin. -/
theorem clamp_routing_infeasible_witness :
    (∃ n, ((3 : Int), n) ∈ (draw_layout exParams exEnvBad exBBox exVdd exVss []).counts ∧
      n < 2) ∧
    (draw_layout exParams exEnvBad exBBox exVdd exVss []).pins = [] :=
  (clamp_routing_infeasible exParams exEnvBad exBBox exVdd exVss []).2 3 (by decide)

/-- C2 counterexample: with both pitches zero the emitted rectangle spans
the full margin-adjusted extent `(0,0,100,100)` instead of collapsing to the
configured unit size 5, refuting the collapsed-to-unit-size claim at this
input. -/
theorem clamp_rect_zero_pitch_cex :
    (draw_layout exParamsRect exEnv exBBox [] [] []).rectArrays =
      [{ layPurp := ("M1", "drawing"),
         box := { xl := 0, yl := 0, xh := 100, yh := 100 },
         numX := 1, numY := 1, spx := 0, spy := 0 }] ∧
    ¬ (((100 : Int) = 0 + exRectArr.wUnit) ∧ ((100 : Int) = 0 + exRectArr.hUnit)) := by
  constructor
  · decide
  · decide

/-- C2 (amended): for a rectangle-array spec with zero pitch on both axes,
exactly one rectangle is emitted, anchored at the margin-adjusted low edge
and spanning the full margin-adjusted extent (not collapsed to the unit
size). -/
theorem clamp_rect_zero_pitch_full_span (P : DrawParams) (env : Env) (bbox : BBoxI)
    (vdd vss nc : List BBoxI) (ra : RectArr)
    (hra : ra ∈ P.rectArrList) (hx : ra.spx = 0) (hy : ra.spy = 0)
    (htop : P.usedPortLayer < resolve_top_layer P.topLayerParam P.topLayerDefault) :
    emit_rect bbox ra ∈ (draw_layout P env bbox vdd vss nc).rectArrays ∧
    (emit_rect bbox ra).numX = 1 ∧ (emit_rect bbox ra).numY = 1 ∧
    (emit_rect bbox ra).box =
      { xl := bbox.xl + ra.marginXl, yl := bbox.yl + ra.marginYl,
        xh := bbox.xh + ra.marginXh, yh := bbox.yh + ra.marginYh } := by
  obtain ⟨_, _, _, _, _, hrects, _, _⟩ := draw_char P env bbox vdd vss nc htop
  refine ⟨?_, ?_, ?_, ?_⟩
  · rw [hrects]
    exact List.mem_map_of_mem _ hra
  · simp [emit_rect, hx]
  · simp [emit_rect, hy]
  · simp [emit_rect, hx, hy]

/-- C2 witness at the concrete zero-pitch configuration. -/
theorem clamp_rect_zero_pitch_full_span_witness :
    emit_rect exBBox exRectArr ∈ (draw_layout exParamsRect exEnv exBBox [] [] []).rectArrays ∧
    (emit_rect exBBox exRectArr).numX = 1 ∧ (emit_rect exBBox exRectArr).numY = 1 ∧
    (emit_rect exBBox exRectArr).box =
      { xl := exBBox.xl + exRectArr.marginXl, yl := exBBox.yl + exRectArr.marginYl,
        xh := exBBox.xh + exRectArr.marginXh, yh := exBBox.yh + exRectArr.marginYh } :=
  clamp_rect_zero_pitch_full_span exParamsRect exEnv exBBox [] [] [] exRectArr
    (by decide) (by decide) (by decide) (by decide)

theorem draw_firstHop_shape (P : DrawParams) (env : Env) (bbox : BBoxI)
    (vdd vss nc : List BBoxI) (fh : FirstHopRec)
    (h : (draw_layout P env bbox vdd vss nc).firstHop = some fh) :
    fh.lIdx = coord_to_track env (P.usedPortLayer + 1) fh.hmLower .greaterEq ∧
    fh.rIdx = coord_to_track env (P.usedPortLayer + 1) fh.hmUpper .lessEq := by
  by_cases htop : P.usedPortLayer < resolve_top_layer P.topLayerParam P.topLayerDefault
  case neg =>
    rw [draw_config P env bbox vdd vss nc htop] at h
    simp at h
  case pos =>
    obtain ⟨_, _, _, hfh, _, _, _, _⟩ := draw_char P env bbox vdd vss nc htop
    rw [hfh] at h
    have heq := route_all_firstHop env _ _ vdd vss fh h
    rw [heq]
    exact ⟨(first_hop_facts env P.usedPortLayer _).1, (first_hop_facts env P.usedPortLayer _).2.1⟩

/-- C3 counterexample: at a concrete run the first-hop window low end is 5
but the snapped low track sits at coordinate 10, above the window end — the
low end is not rounded toward lower coordinates. -/
theorem clamp_snap_low_outward_cex :
    (draw_layout exParams exEnv exBBox exPinOff exPinOff []).firstHop =
      some { hmLower := 5, hmUpper := 45, lIdx := 1, rIdx := 4 } ∧
    ¬ (track_coord exEnv (exParams.usedPortLayer + 1) 1 ≤ 5) := by
  constructor
  · decide
  · decide

/-- C3 (amended): both window ends snap inward — the low end to the least
track at or above it (toward higher coordinates, `GREATER_EQ`), the high
end to the greatest track at or below it (toward lower coordinates,
`LESS_EQ`). -/
theorem clamp_snap_inward (P : DrawParams) (env : Env) (bbox : BBoxI)
    (vdd vss nc : List BBoxI) (fh : FirstHopRec)
    (hp : 0 < env.track_pitch (P.usedPortLayer + 1))
    (h : (draw_layout P env bbox vdd vss nc).firstHop = some fh) :
    (fh.hmLower ≤ track_coord env (P.usedPortLayer + 1) fh.lIdx ∧
      ∀ i, fh.hmLower ≤ track_coord env (P.usedPortLayer + 1) i → fh.lIdx ≤ i) ∧
    (track_coord env (P.usedPortLayer + 1) fh.rIdx ≤ fh.hmUpper ∧
      ∀ i, track_coord env (P.usedPortLayer + 1) i ≤ fh.hmUpper → i ≤ fh.rIdx) := by
  obtain ⟨hl, hr⟩ := draw_firstHop_shape P env bbox vdd vss nc fh h
  refine ⟨⟨?_, ?_⟩, ?_, ?_⟩
  · exact (le_track_coord_iff env _ hp fh.lIdx fh.hmLower).mpr (le_of_eq hl.symm)
  · intro i hi
    rw [hl]
    exact (le_track_coord_iff env _ hp i fh.hmLower).mp hi
  · exact (track_coord_le_iff env _ hp fh.rIdx fh.hmUpper).mpr (le_of_eq hr)
  · intro i hi
    rw [hr]
    exact (track_coord_le_iff env _ hp i fh.hmUpper).mp hi

/-- C3 witness: at the concrete run the snapped window `[5, 45]` has its low
track at coordinate 10 ≥ 5 and its high track at coordinate 40 ≤ 45. -/
theorem clamp_snap_inward_witness :
    (5 : Int) ≤ track_coord exEnv (exParams.usedPortLayer + 1) 1 ∧
    track_coord exEnv (exParams.usedPortLayer + 1) 4 ≤ 45 :=
  ⟨(clamp_snap_inward exParams exEnv exBBox exPinOff exPinOff []
      { hmLower := 5, hmUpper := 45, lIdx := 1, rIdx := 4 } (by decide) (by decide)).1.1,
   (clamp_snap_inward exParams exEnv exBBox exPinOff exPinOff []
      { hmLower := 5, hmUpper := 45, lIdx := 1, rIdx := 4 } (by decide) (by decide)).2.1⟩

/-- C4: the planner's full observable outcome is invariant under any
permutation of the VDD and VSS pin-rectangle sequences, and every per-layer
spread assigns the VDD net the track at list position 0 and the VSS net the
track at list position 1. -/
theorem clamp_supply_order_det (P : DrawParams) (env : Env) (bbox : BBoxI)
    {vdd1 vdd2 vss1 vss2 : List BBoxI} (nc : List BBoxI)
    (h1 : vdd1.Perm vdd2) (h2 : vss1.Perm vss2) :
    draw_layout P env bbox vdd1 vss1 nc = draw_layout P env bbox vdd2 vss2 nc ∧
    ∀ s ∈ (draw_layout P env bbox vdd1 vss1 nc).spreads,
      s.vddIdx = s.idxList.getD 0 0 ∧ s.vssIdx = s.idxList.getD 1 0 := by
  constructor
  · simp only [draw_layout]
    rw [route_all_perm env P.usedPortLayer
      (resolve_top_layer P.topLayerParam P.topLayerDefault) h1 h2]
  · by_cases htop : P.usedPortLayer < resolve_top_layer P.topLayerParam P.topLayerDefault
    · obtain ⟨_, _, _, _, hsp, _, _, _⟩ := draw_char P env bbox vdd1 vss1 nc htop
      rw [hsp]
      exact route_all_spreads env _ _ vdd1 vss1
    · rw [draw_config P env bbox vdd1 vss1 nc htop]
      intro s hs
      simp at hs

/-- C4 witness: swapping the two VDD pin rectangles leaves the whole
outcome unchanged, with VDD at spread position 0 and VSS at position 1. -/
theorem clamp_supply_order_det_witness :
    draw_layout exParams exEnv exBBox [⟨0, 10, 5, 20⟩, ⟨0, 40, 5, 50⟩] exVss [] =
      draw_layout exParams exEnv exBBox [⟨0, 40, 5, 50⟩, ⟨0, 10, 5, 20⟩] exVss [] ∧
    ∀ s ∈ (draw_layout exParams exEnv exBBox
        [⟨0, 10, 5, 20⟩, ⟨0, 40, 5, 50⟩] exVss []).spreads,
      s.vddIdx = s.idxList.getD 0 0 ∧ s.vssIdx = s.idxList.getD 1 0 :=
  clamp_supply_order_det exParams exEnv exBBox [] (by decide) (by decide)

/-- C5: for `used_port_layer < top_layer`, nonempty supply pin sets and no
infeasible routed layer, the planner publishes exactly one connectable VDD
wire and one connectable VSS wire, both on the resolved top layer. -/
theorem clamp_final_pins (P : DrawParams) (env : Env) (bbox : BBoxI)
    (vdd vss nc : List BBoxI)
    (htop : P.usedPortLayer < resolve_top_layer P.topLayerParam P.topLayerDefault)
    (hvdd : vdd ≠ []) (hvss : vss ≠ [])
    (hfeas : ∀ c ∈ (draw_layout P env bbox vdd vss nc).counts, ¬ c.2 < 2) :
    ∃ w1 w2,
      ((draw_layout P env bbox vdd vss nc).pins.filter (fun p => p.connect)) =
        [{ net := "VDD", geom := .wire w1, hidden := false, connect := true },
         { net := "VSS", geom := .wire w2, hidden := false, connect := true }] ∧
      w1.layer = (draw_layout P env bbox vdd vss nc).topLayer ∧
      w2.layer = (draw_layout P env bbox vdd vss nc).topLayer := by
  obtain ⟨he, hc, _, _, _, _, hpnone, _⟩ := draw_char P env bbox vdd vss nc htop
  have herr : (route_all env P.usedPortLayer
      (resolve_top_layer P.topLayerParam P.topLayerDefault) vdd vss).err = none := by
    rcases hcase : (route_all env P.usedPortLayer
        (resolve_top_layer P.topLayerParam P.topLayerDefault) vdd vss).err with _ | e
    · rfl
    · cases e with
      | configError => exact absurd hcase (route_all_ne_config env _ _ vdd vss)
      | routingInfeasible L =>
        obtain ⟨n, hm, hlt⟩ := route_all_err_routing env _ _ vdd vss L hcase
        exact absurd hlt (hfeas (L, n) (by rw [hc]; exact hm))
      | emptyPins =>
        rcases route_all_err_empty env _ _ vdd vss hcase with hemp | hmp | hmm
        · simp at hemp
          exact (hvss hemp.1).elim
        · exact (hvdd (by simpa using merge_on_none hmp)).elim
        · exact (hvss (by simpa using merge_on_none hmm)).elim
  obtain ⟨_, _, hply, hmly⟩ := route_all_none env _ _ vdd vss herr
  refine ⟨(route_all env P.usedPortLayer
      (resolve_top_layer P.topLayerParam P.topLayerDefault) vdd vss).plus,
    (route_all env P.usedPortLayer
      (resolve_top_layer P.topLayerParam P.topLayerDefault) vdd vss).minus, ?_, ?_, ?_⟩
  · rw [hpnone herr]
    simp [List.filter, filter_connect_nc]
  · rw [draw_topLayer, hply, getLastD_layers_eq_top _ _ htop]
  · rw [draw_topLayer, hmly, getLastD_layers_eq_top _ _ htop]

/-- C5 witness at the spec's example scenario (`used_port_layer = 2`,
`top_layer = 4`, two VDD pin rectangles and one VSS pin rectangle). -/
theorem clamp_final_pins_witness :
    ∃ w1 w2,
      ((draw_layout exParams exEnv exBBox exVdd exVss []).pins.filter (fun p => p.connect)) =
        [{ net := "VDD", geom := .wire w1, hidden := false, connect := true },
         { net := "VSS", geom := .wire w2, hidden := false, connect := true }] ∧
      w1.layer = (draw_layout exParams exEnv exBBox exVdd exVss []).topLayer ∧
      w2.layer = (draw_layout exParams exEnv exBBox exVdd exVss []).topLayer :=
  clamp_final_pins exParams exEnv exBBox exVdd exVss []
    (by decide) (by decide) (by decide) (by decide)

/-- C6: on a successful pass, routing visits exactly the layers from
`used_port_layer + 1` up to the resolved top layer, in strictly increasing
order, each exactly once, with none skipped or repeated. -/
theorem clamp_layer_progression (P : DrawParams) (env : Env) (bbox : BBoxI)
    (vdd vss nc : List BBoxI)
    (h : (draw_layout P env bbox vdd vss nc).err = none) :
    (draw_layout P env bbox vdd vss nc).routedLayers =
      int_range (P.usedPortLayer + 1)
        ((draw_layout P env bbox vdd vss nc).topLayer - P.usedPortLayer).toNat ∧
    (draw_layout P env bbox vdd vss nc).routedLayers.Pairwise (· < ·) ∧
    (draw_layout P env bbox vdd vss nc).routedLayers.Nodup ∧
    (∀ L, L ∈ (draw_layout P env bbox vdd vss nc).routedLayers ↔
      P.usedPortLayer + 1 ≤ L ∧ L ≤ (draw_layout P env bbox vdd vss nc).topLayer) := by
  by_cases htop : P.usedPortLayer < resolve_top_layer P.topLayerParam P.topLayerDefault
  case neg =>
    rw [draw_config P env bbox vdd vss nc htop] at h
    simp at h
  case pos =>
    obtain ⟨he, _, hrt, _, _, _, _, _⟩ := draw_char P env bbox vdd vss nc htop
    rw [he] at h
    obtain ⟨hr, _, _, _⟩ := route_all_none env _ _ vdd vss h
    have hshape : (draw_layout P env bbox vdd vss nc).routedLayers =
        int_range (P.usedPortLayer + 1)
          (resolve_top_layer P.topLayerParam P.topLayerDefault - P.usedPortLayer).toNat := by
      rw [hrt, hr]
      have hn : (resolve_top_layer P.topLayerParam P.topLayerDefault - P.usedPortLayer).toNat =
          (resolve_top_layer P.topLayerParam P.topLayerDefault - (P.usedPortLayer + 1)).toNat
            + 1 := by
        omega
      rw [hn]
      rfl
    rw [draw_topLayer]
    refine ⟨hshape, ?_, ?_, ?_⟩
    · rw [hshape]
      exact int_range_pairwise _ _
    · rw [hshape]
      exact List.Pairwise.imp (fun hab => ne_of_lt hab) (int_range_pairwise _ _)
    · intro L
      rw [hshape, mem_int_range]
      omega

/-- C6 witness: the concrete successful run routes exactly layers 3 and 4. -/
theorem clamp_layer_progression_witness :
    (draw_layout exParams exEnv exBBox exVdd exVss []).routedLayers =
      int_range (exParams.usedPortLayer + 1)
        ((draw_layout exParams exEnv exBBox exVdd exVss []).topLayer -
          exParams.usedPortLayer).toNat :=
  (clamp_layer_progression exParams exEnv exBBox exVdd exVss [] (by decide)).1

/-- C7 counterexample: supplying the explicit top-layer parameter `0` does
not override the technology default — the resolved top layer is the default
3, not the supplied 0 (Python falsiness of `0` in `if not _top_layer`). -/
theorem clamp_top_layer_zero_cex :
    exParamsZero.topLayerParam = some 0 ∧
    (draw_layout exParamsZero exEnv exBBox [] [] []).topLayer = 3 ∧
    ((draw_layout exParamsZero exEnv exBBox [] [] []).topLayer ≠ 0) := by
  refine ⟨rfl, by decide, by decide⟩

/-- C7 (amended): a supplied nonzero top-layer parameter overrides the
technology default; an absent parameter or a supplied zero falls back to
the default. -/
theorem clamp_top_layer_resolution (P : DrawParams) (env : Env) (bbox : BBoxI)
    (vdd vss nc : List BBoxI) :
    (∀ v, P.topLayerParam = some v → v ≠ 0 →
      (draw_layout P env bbox vdd vss nc).topLayer = v) ∧
    (P.topLayerParam = none →
      (draw_layout P env bbox vdd vss nc).topLayer = P.topLayerDefault) ∧
    (P.topLayerParam = some 0 →
      (draw_layout P env bbox vdd vss nc).topLayer = P.topLayerDefault) := by
  refine ⟨?_, ?_, ?_⟩
  · intro v hv hv0
    rw [draw_topLayer]
    simp [resolve_top_layer, hv, hv0]
  · intro hv
    rw [draw_topLayer]
    simp [resolve_top_layer, hv]
  · intro hv
    rw [draw_topLayer]
    simp [resolve_top_layer, hv]

/-- C7 witness: supplying the nonzero value 5 overrides the default 3. -/
theorem clamp_top_layer_resolution_witness :
    (draw_layout
      { topLayerParam := some 5, topLayerDefault := 3, usedPortLayer := 1, rectArrList := [] }
      exEnv exBBox [] [] []).topLayer = 5 :=
  (clamp_top_layer_resolution
    { topLayerParam := some 5, topLayerDefault := 3, usedPortLayer := 1, rectArrList := [] }
    exEnv exBBox [] [] []).1 5 rfl (by decide)

/-- C8: when `used_port_layer` is at or above the resolved top layer the
planner stops with the configuration error before any geometry — no
rectangle array, pin, routed layer, spread, count or first-hop window is
produced; when `used_port_layer` is below it, that error is never raised. -/
theorem clamp_config_guard (P : DrawParams) (env : Env) (bbox : BBoxI)
    (vdd vss nc : List BBoxI) :
    (resolve_top_layer P.topLayerParam P.topLayerDefault ≤ P.usedPortLayer →
      (draw_layout P env bbox vdd vss nc).err = some DrawErr.configError ∧
      (draw_layout P env bbox vdd vss nc).rectArrays = [] ∧
      (draw_layout P env bbox vdd vss nc).pins = [] ∧
      (draw_layout P env bbox vdd vss nc).routedLayers = [] ∧
      (draw_layout P env bbox vdd vss nc).spreads = [] ∧
      (draw_layout P env bbox vdd vss nc).counts = [] ∧
      (draw_layout P env bbox vdd vss nc).firstHop = none) ∧
    (P.usedPortLayer < resolve_top_layer P.topLayerParam P.topLayerDefault →
      (draw_layout P env bbox vdd vss nc).err ≠ some DrawErr.configError) := by
  constructor
  · intro hle
    rw [draw_config P env bbox vdd vss nc (by omega)]
    exact ⟨rfl, rfl, rfl, rfl, rfl, rfl, rfl⟩
  · intro hlt
    obtain ⟨he, _⟩ := draw_char P env bbox vdd vss nc hlt
    rw [he]
    exact route_all_ne_config env _ _ vdd vss

/-- C8 witness: `used_port_layer = 5` against resolved top layer 2 stops
with the configuration error and produces no geometry. -/
theorem clamp_config_guard_witness :
    (draw_layout
      { topLayerParam := none, topLayerDefault := 2, usedPortLayer := 5, rectArrList := [] }
      exEnv exBBox [] [] []).err = some DrawErr.configError ∧
    (draw_layout
      { topLayerParam := none, topLayerDefault := 2, usedPortLayer := 5, rectArrList := [] }
      exEnv exBBox [] [] []).rectArrays = [] ∧
    (draw_layout
      { topLayerParam := none, topLayerDefault := 2, usedPortLayer := 5, rectArrList := [] }
      exEnv exBBox [] [] []).pins = [] ∧
    (draw_layout
      { topLayerParam := none, topLayerDefault := 2, usedPortLayer := 5, rectArrList := [] }
      exEnv exBBox [] [] []).routedLayers = [] ∧
    (draw_layout
      { topLayerParam := none, topLayerDefault := 2, usedPortLayer := 5, rectArrList := [] }
      exEnv exBBox [] [] []).spreads = [] ∧
    (draw_layout
      { topLayerParam := none, topLayerDefault := 2, usedPortLayer := 5, rectArrList := [] }
      exEnv exBBox [] [] []).counts = [] ∧
    (draw_layout
      { topLayerParam := none, topLayerDefault := 2, usedPortLayer := 5, rectArrList := [] }
      exEnv exBBox [] [] []).firstHop = none :=
  (clamp_config_guard
    { topLayerParam := none, topLayerDefault := 2, usedPortLayer := 5, rectArrList := [] }
    exEnv exBBox [] [] []).1 (by decide)
